import Mathlib

/-!
Verification development for the `calculator` repository
(`src/backend/calculator.py`, `src/backend/grapher.py`).

The backend delegates expression evaluation to Python's `eval` builtin,
applied (with `{"__builtins__": {}}`) to a string that was first rewritten
by `Calculator._prepare_expression` / `Grapher.parse_function`.  The shallow
embedding below therefore models
  * the string rewriting passes exactly as implemented, and
  * the fragment of Python's expression language reachable from the
    calculator's validated character set and from the grapher's inputs:
    int/float literals (including scientific notation and hex), names,
    `+ - * / // % **`, unary `+`/`-`, parentheses, tuples, calls,
    and attribute access, evaluated against the restricted symbol tables
    `math_context` of the two classes.

Numbers are modelled as exact rationals (`PyRat`).  This idealizes IEEE
double arithmetic: results are exact, and a finite result whose magnitude
reaches 2^1024 becomes an infinity (for `+ - * /`) or raises OverflowError
(for `**` and for `float()` of a large int), matching CPython's visible
behaviour.  Rounding error and subnormal underflow are not modelled;
no claim below depends on them.  Irrational powers (a non-integer exponent)
are outside the rational carrier and evaluate to the artificial error
`PyErr.unmodeledPow`; no claim depends on those either.
-/

/-- Fueled Euclidean algorithm.  Structural recursion on the fuel, so the
kernel can evaluate it (Mathlib's `Nat.gcd` is well-founded and does not
reduce).  `gcdF f a b = Nat.gcd a b` whenever `b ≤ f`. -/
def gcdF : Nat → Nat → Nat → Nat
  | 0, a, _ => a
  | f + 1, a, b => if b = 0 then a else gcdF f b (a % b)

/-- Kernel-computable gcd. -/
def myGcd (a b : Nat) : Nat := gcdF (b + 1) a b

/-- Exact rational number in lowest terms: numerator `n`, positive
denominator `d`.  Stands in for Python's int/float values. -/
structure PyRat where
  n : Int
  d : Nat
deriving DecidableEq

/-- Build a `PyRat` from a fraction `num / den` (`den ≠ 0` expected),
normalizing the sign into the numerator and cancelling the gcd. -/
def mkPyRat (num den : Int) : PyRat :=
  if den = 0 then ⟨0, 1⟩
  else
    let s : Int := if den < 0 then -num else num
    let dd : Nat := den.natAbs
    let g : Nat := myGcd s.natAbs dd
    if g = 0 then ⟨0, 1⟩ else ⟨s / (g : Int), dd / g⟩

/-- The integer `k` as a `PyRat`. -/
def pr (k : Int) : PyRat := ⟨k, 1⟩

def PyRat.add (a b : PyRat) : PyRat :=
  mkPyRat (a.n * (b.d : Int) + b.n * (a.d : Int)) ((a.d : Int) * (b.d : Int))

def PyRat.sub (a b : PyRat) : PyRat :=
  mkPyRat (a.n * (b.d : Int) - b.n * (a.d : Int)) ((a.d : Int) * (b.d : Int))

def PyRat.mul (a b : PyRat) : PyRat :=
  mkPyRat (a.n * b.n) ((a.d : Int) * (b.d : Int))

def PyRat.div (a b : PyRat) : PyRat :=
  mkPyRat (a.n * (b.d : Int)) ((a.d : Int) * b.n)

def PyRat.neg (a : PyRat) : PyRat := ⟨-a.n, a.d⟩

def PyRat.isZero (a : PyRat) : Bool := a.n = 0

/-- Strict comparison; denominators are positive so cross-multiplying
preserves the order. -/
def PyRat.blt (a b : PyRat) : Bool := a.n * (b.d : Int) < b.n * (a.d : Int)

def PyRat.ble (a b : PyRat) : Bool := a.n * (b.d : Int) ≤ b.n * (a.d : Int)

def PyRat.babs (a : PyRat) : PyRat := ⟨a.n.natAbs, a.d⟩

/-- True when the value is a mathematical integer (denominator 1 in lowest
terms). -/
def PyRat.isInt (a : PyRat) : Bool := a.d = 1

/-- Floor, as an integer (`Int.fdiv` is floor division). -/
def PyRat.floor (a : PyRat) : Int := a.n.fdiv a.d

/-- Kernel-computable integer power by repeated squaring (the fueled
halving keeps the recursion structural and the evaluation shallow). -/
def intPowF : Nat → Int → Nat → Int
  | 0, _, _ => 1
  | f + 1, b, k =>
      if k = 0 then 1
      else
        let h := intPowF f b (k / 2)
        if k % 2 = 0 then h * h else b * (h * h)

def intPow (b : Int) (k : Nat) : Int := intPowF (k + 1) b k

/-- Natural power of a `PyRat` (numerator and denominator powers; powers of
a fraction in lowest terms stay in lowest terms). -/
def PyRat.npow (a : PyRat) (k : Nat) : PyRat :=
  ⟨intPow a.n k, (intPow (a.d : Int) k).natAbs⟩

/-- Integer power of a `PyRat` (negative exponent inverts; the base must be
nonzero for negative exponents, which callers guard). -/
def PyRat.zpow (a : PyRat) (k : Int) : PyRat :=
  if 0 ≤ k then a.npow k.natAbs
  else (pr 1).div (a.npow k.natAbs)

/-- Integer value of an integral `PyRat` (callers guard `isInt`). -/
def PyRat.toInt (a : PyRat) : Int := a.n.fdiv a.d

/-- Rational valuation of a `PyRat`, used only in specifications/proofs. -/
def PyRat.val (a : PyRat) : ℚ := (a.n : ℚ) / (a.d : ℚ)

/-- Errors of the modelled Python fragment, by exception class.
`unmodeledPow` is an artefact of the rational idealization (irrational
powers); it never arises in any claim's inputs. -/
inductive PyErr where
  | zeroDiv       -- ZeroDivisionError
  | valueErr      -- ValueError (math domain error etc.)
  | overflowErr   -- OverflowError
  | synErr        -- SyntaxError (including tokenizer errors)
  | nameErr       -- NameError
  | typeErr       -- TypeError
  | attrErr       -- AttributeError
  | unmodeledPow  -- modelling artefact, see module docstring
deriving DecidableEq

/-- The built-in callables reachable through the two `math_context`
dictionaries. -/
inductive Builtin where
  | babs | bround | bmin | bmax | bsqrt | bsin | bcos | btan
deriving DecidableEq

/-- Python runtime values reachable from the modelled fragment.
`num q isFloat` is an int (`isFloat = false`) or float (`isFloat = true`)
with exact value `q`; `inf neg` and `nan` are the IEEE specials; `builtin`
is a function object from the symbol table; `tuple` a tuple of values. -/
inductive Val where
  | num (q : PyRat) (isFloat : Bool)
  | inf (neg : Bool)
  | nan
  | builtin (f : Builtin)
  | tuple (vs : List Val)

/-- isinstance(v, (int, float)) — NaN and the infinities are floats. -/
def Val.isNumber : Val → Bool
  | .num _ _ => true
  | .inf _ => true
  | .nan => true
  | _ => false

/-- math.isnan(v) or math.isinf(v). -/
def Val.isNanOrInf : Val → Bool
  | .inf _ => true
  | .nan => true
  | _ => false

/-- Overflow threshold of IEEE doubles: magnitudes reaching 2^1024 are not
representable. -/
def floatLim : PyRat := ⟨intPow 2 1024, 1⟩

/-- Package an exact float-arithmetic result: overflow becomes an infinity
(CPython's float `+ - * /` overflow to inf, they do not raise). -/
def mkFloatNum (q : PyRat) : Val :=
  if floatLim.ble q.babs then .inf (q.n < 0) else .num q true

/-- Finite binary result: int context stays exact, float context may
overflow to an infinity. -/
def finNum (q : PyRat) (isFloat : Bool) : Val :=
  if isFloat then mkFloatNum q else .num q false

/-- Python `+` on values. -/
def pyAdd (v w : Val) : Except PyErr Val :=
  match v, w with
  | .num a fa, .num b fb => .ok (finNum (a.add b) (fa || fb))
  | .nan, .num _ _ | .num _ _, .nan | .nan, .nan | .nan, .inf _ | .inf _, .nan =>
      .ok .nan
  | .inf s, .num _ _ | .num _ _, .inf s => .ok (.inf s)
  | .inf s, .inf t => if s = t then .ok (.inf s) else .ok .nan
  | _, _ => .error .typeErr

/-- Python `-` on values. -/
def pySub (v w : Val) : Except PyErr Val :=
  match v, w with
  | .num a fa, .num b fb => .ok (finNum (a.sub b) (fa || fb))
  | .nan, .num _ _ | .num _ _, .nan | .nan, .nan | .nan, .inf _ | .inf _, .nan =>
      .ok .nan
  | .inf s, .num _ _ => .ok (.inf s)
  | .num _ _, .inf s => .ok (.inf (!s))
  | .inf s, .inf t => if s = t then .ok .nan else .ok (.inf s)
  | _, _ => .error .typeErr

/-- Python `*` on values (inf * 0 is nan). -/
def pyMul (v w : Val) : Except PyErr Val :=
  match v, w with
  | .num a fa, .num b fb => .ok (finNum (a.mul b) (fa || fb))
  | .nan, .num _ _ | .num _ _, .nan | .nan, .nan | .nan, .inf _ | .inf _, .nan =>
      .ok .nan
  | .inf s, .num b _ | .num b _, .inf s =>
      if b.isZero then .ok .nan else .ok (.inf (xor s (b.blt (pr 0))))
  | .inf s, .inf t => .ok (.inf (xor s t))
  | _, _ => .error .typeErr

/-- Python `/` on values.  A zero right operand raises ZeroDivisionError for
every numeric left operand (CPython checks the divisor first, even for nan).
True division of two ints produces a float; an int/int quotient too large
for a double raises OverflowError, while float-context overflow is inf. -/
def pyDiv (v w : Val) : Except PyErr Val :=
  match v, w with
  | .num a fa, .num b fb =>
      if b.isZero then .error .zeroDiv
      else
        let q := a.div b
        if fa || fb then .ok (mkFloatNum q)
        else if floatLim.ble q.babs then .error .overflowErr
        else .ok (.num q true)
  | .inf _, .num b _ =>
      if b.isZero then .error .zeroDiv
      else
        match v with
        | .inf s => .ok (.inf (xor s (b.blt (pr 0))))
        | _ => .error .typeErr
  | .nan, .num b _ => if b.isZero then .error .zeroDiv else .ok .nan
  | .num _ _, .inf _ => .ok (.num (pr 0) true)
  | .nan, .inf _ => .ok .nan
  | .inf _, .inf _ => .ok .nan
  | .num _ _, .nan | .inf _, .nan | .nan, .nan => .ok .nan
  | _, _ => .error .typeErr

/-- Python `//` on values (floor division; specials follow CPython: a finite
number floor-divided by an infinity gives 0.0 or -1.0 by sign, an infinite
dividend gives nan). -/
def pyFloorDiv (v w : Val) : Except PyErr Val :=
  match v, w with
  | .num a fa, .num b fb =>
      if b.isZero then .error .zeroDiv
      else
        let q : PyRat := pr ((a.div b).floor)
        if fa || fb then .ok (mkFloatNum q) else .ok (.num q false)
  | .num a _, .inf s =>
      if a.isZero || (a.blt (pr 0)) = s then .ok (.num (pr 0) true)
      else .ok (.num (pr (-1)) true)
  | .inf _, .num b _ => if b.isZero then .error .zeroDiv else .ok .nan
  | .nan, .num b _ => if b.isZero then .error .zeroDiv else .ok .nan
  | .inf _, .inf _ | .inf _, .nan | .nan, .inf _ | .nan, .nan | .num _ _, .nan =>
      .ok .nan
  | _, _ => .error .typeErr

/-- Python `%` on values (`a - b * floor(a/b)`, sign follows the divisor; a
finite dividend with an infinite divisor keeps its value or returns the
infinity by sign, per CPython). -/
def pyMod (v w : Val) : Except PyErr Val :=
  match v, w with
  | .num a fa, .num b fb =>
      if b.isZero then .error .zeroDiv
      else
        let q := a.sub (b.mul (pr ((a.div b).floor)))
        if fa || fb then .ok (mkFloatNum q) else .ok (.num q false)
  | .num a _, .inf s =>
      if a.isZero || (a.blt (pr 0)) = s then .ok (.num a true)
      else .ok (.inf s)
  | .inf _, .num b _ => if b.isZero then .error .zeroDiv else .ok .nan
  | .nan, .num b _ => if b.isZero then .error .zeroDiv else .ok .nan
  | .inf _, .inf _ | .inf _, .nan | .nan, .inf _ | .nan, .nan | .num _ _, .nan =>
      .ok .nan
  | _, _ => .error .typeErr

/-- Python `**` on values.  Integer exponents are exact; `0` to a negative
power raises ZeroDivisionError; float-context overflow raises OverflowError
(CPython float pow raises instead of returning inf); IEEE special cases for
nan/inf operands; a non-integer exponent leaves the rational carrier and is
the modelling artefact `unmodeledPow`. -/
def pyPow (v w : Val) : Except PyErr Val :=
  match v, w with
  | .num a fa, .num b fb =>
      if b.isInt then
        if a.isZero && b.blt (pr 0) then .error .zeroDiv
        else
          let q := a.zpow b.toInt
          let isF := fa || fb || b.blt (pr 0)
          if isF then
            if floatLim.ble q.babs then .error .overflowErr else .ok (.num q true)
          else .ok (.num q false)
      else .error .unmodeledPow
  | .nan, .num b _ => if b.isZero then .ok (.num (pr 1) true) else .ok .nan
  | .num a _, .nan =>
      if a.babs = pr 1 then .ok (.num (pr 1) true) else .ok .nan
  | .inf _, .num b _ =>
      if b.isZero then .ok (.num (pr 1) true)
      else if b.isInt then
        match v with
        | .inf s =>
            if b.blt (pr 0) then .ok (.num (pr 0) true)
            else .ok (.inf (s && b.toInt % 2 = 1))
        | _ => .error .typeErr
      else .error .unmodeledPow
  | .num a _, .inf s =>
      if a.babs = pr 1 then .ok (.num (pr 1) true)
      else if xor ((pr 1).blt a.babs) s then .ok (.inf false)
      else .ok (.num (pr 0) true)
  | .inf _, .inf s =>
      if s then .ok (.num (pr 0) true) else .ok (.inf false)
  | .inf _, .nan | .nan, .inf _ | .nan, .nan => .ok .nan
  | _, _ => .error .typeErr

/-- Unary minus. -/
def pyNeg (v : Val) : Except PyErr Val :=
  match v with
  | .num q f => .ok (.num q.neg f)
  | .inf s => .ok (.inf (!s))
  | .nan => .ok .nan
  | _ => .error .typeErr

/-- Unary plus. -/
def pyPos (v : Val) : Except PyErr Val :=
  match v with
  | .num q f => .ok (.num q f)
  | .inf s => .ok (.inf s)
  | .nan => .ok .nan
  | _ => .error .typeErr

/-- Round half to even (Python's `round` on the rational carrier). -/
def roundHalfEven (q : PyRat) : Int :=
  let f := q.floor
  let r := q.sub (pr f)
  let half : PyRat := mkPyRat 1 2
  if r.blt half then f
  else if half.blt r then f + 1
  else if f % 2 = 0 then f else f + 1

/-- Exact-where-possible square root: `sqrt (n/d) = sqrt (n*d) / d`, using
the floor square root.  Faithful on perfect squares; on other inputs it is
the rational idealization of the double result (no claim depends on those
values). -/
def ratSqrt (q : PyRat) : PyRat :=
  mkPyRat (Nat.sqrt (q.n.natAbs * q.d)) q.d

/-- Truncated Taylor series standing in for `math.sin`; an idealization of
the double-precision value (no claim depends on it). -/
def ratSin (q : PyRat) : PyRat :=
  let q2 := q.mul q
  let q3 := q2.mul q
  let q5 := q3.mul q2
  let q7 := q5.mul q2
  ((q.sub (q3.div (pr 6))).add (q5.div (pr 120))).sub (q7.div (pr 5040))

/-- Truncated Taylor series standing in for `math.cos` (idealization). -/
def ratCos (q : PyRat) : PyRat :=
  let q2 := q.mul q
  let q4 := q2.mul q2
  let q6 := q4.mul q2
  (((pr 1).sub (q2.div (pr 2))).add (q4.div (pr 24))).sub (q6.div (pr 720))

/-- Quotient of the two approximations, standing in for `math.tan`
(idealization; `math.tan` never raises on finite doubles). -/
def ratTan (q : PyRat) : PyRat :=
  let c := ratCos q
  if c.isZero then pr 0 else (ratSin q).div c

/-- Comparison used by min/max folding: `a < b` on values.  NaN compares
false against numbers (CPython); non-numeric comparison is a TypeError. -/
def pyLtV (a b : Val) : Except PyErr Bool :=
  match a, b with
  | .num x _, .num y _ => .ok (x.blt y)
  | .num _ _, .inf s => .ok (!s)
  | .inf s, .num _ _ => .ok s
  | .inf s, .inf t => .ok (s && !t)
  | .nan, .num _ _ | .num _ _, .nan | .nan, .nan | .nan, .inf _ | .inf _, .nan =>
      .ok false
  | _, _ => .error .typeErr

/-- Fold for `min`/`max`: keep the current best unless the comparison
(new `<` best for min, best `<` new for max) says to replace it — this is
exactly CPython's first-wins iteration order. -/
def foldBest (takeNew : Val → Val → Except PyErr Bool) :
    Val → List Val → Except PyErr Val
  | best, [] => .ok best
  | best, v :: vs => do
      let b ← takeNew v best
      foldBest takeNew (if b then v else best) vs

/-- Apply one of the symbol-table callables to evaluated arguments,
following CPython's arity and type behaviour on the modelled fragment. -/
def applyBuiltin : Builtin → List Val → Except PyErr Val
  | .babs, [v] =>
      match v with
      | .num q f => .ok (.num q.babs f)
      | .inf _ => .ok (.inf false)
      | .nan => .ok .nan
      | _ => .error .typeErr
  | .babs, _ => .error .typeErr
  | .bround, [v] =>
      match v with
      | .num q _ => .ok (.num (pr (roundHalfEven q)) false)
      | .inf _ => .error .overflowErr
      | .nan => .error .valueErr
      | _ => .error .typeErr
  | .bround, [v, nd] =>
      match v, nd with
      | .num q f, .num k false =>
          let scale := (pr 10).zpow k.toInt
          .ok (.num ((pr (roundHalfEven (q.mul scale))).div scale) f)
      | .inf s, .num _ false => .ok (.inf s)
      | .nan, .num _ false => .ok .nan
      | _, _ => .error .typeErr
  | .bround, _ => .error .typeErr
  | .bmin, [] => .error .typeErr
  | .bmin, [v] =>
      match v with
      | .tuple [] => .error .valueErr
      | .tuple (x :: xs) => foldBest (fun nv best => pyLtV nv best) x xs
      | _ => .error .typeErr
  | .bmin, x :: xs => foldBest (fun nv best => pyLtV nv best) x xs
  | .bmax, [] => .error .typeErr
  | .bmax, [v] =>
      match v with
      | .tuple [] => .error .valueErr
      | .tuple (x :: xs) => foldBest (fun nv best => pyLtV best nv) x xs
      | _ => .error .typeErr
  | .bmax, x :: xs => foldBest (fun nv best => pyLtV best nv) x xs
  | .bsqrt, [v] =>
      match v with
      | .num q _ =>
          if q.blt (pr 0) then .error .valueErr else .ok (.num (ratSqrt q) true)
      | .inf false => .ok (.inf false)
      | .inf true => .error .valueErr
      | .nan => .ok .nan
      | _ => .error .typeErr
  | .bsqrt, _ => .error .typeErr
  | .bsin, [v] =>
      match v with
      | .num q _ => .ok (.num (ratSin q) true)
      | .inf _ => .error .valueErr
      | .nan => .ok .nan
      | _ => .error .typeErr
  | .bsin, _ => .error .typeErr
  | .bcos, [v] =>
      match v with
      | .num q _ => .ok (.num (ratCos q) true)
      | .inf _ => .error .valueErr
      | .nan => .ok .nan
      | _ => .error .typeErr
  | .bcos, _ => .error .typeErr
  | .btan, [v] =>
      match v with
      | .num q _ => .ok (.num (ratTan q) true)
      | .inf _ => .error .valueErr
      | .nan => .ok .nan
      | _ => .error .typeErr
  | .btan, _ => .error .typeErr

def fldNumerator : List Char := "numerator".data

def fldDenominator : List Char := "denominator".data

def fldReal : List Char := "real".data

def fldImag : List Char := "imag".data

/-- Attribute access on values for the attributes spellable from the
calculator's validated character set (`int.numerator`, `int.denominator`,
`real`, `imag`); anything else raises AttributeError. -/
def attrOf (v : Val) (fld : List Char) : Except PyErr Val :=
  if fld = fldNumerator then
    match v with
    | .num q false => .ok (.num q false)
    | _ => .error .attrErr
  else if fld = fldDenominator then
    match v with
    | .num _ false => .ok (.num (pr 1) false)
    | _ => .error .attrErr
  else if fld = fldReal then
    match v with
    | .num q f => .ok (.num q f)
    | .inf s => .ok (.inf s)
    | .nan => .ok .nan
    | _ => .error .attrErr
  else if fld = fldImag then
    match v with
    | .num _ f => .ok (.num (pr 0) f)
    | .inf _ => .ok (.num (pr 0) true)
    | .nan => .ok (.num (pr 0) true)
    | _ => .error .attrErr
  else .error .attrErr

def nmPi : List Char := "pi".data

def nmE : List Char := "e".data

def nmAbs : List Char := "abs".data

def nmRound : List Char := "round".data

def nmMin : List Char := "min".data

def nmMax : List Char := "max".data

def nmSqrt : List Char := "sqrt".data

def nmSin : List Char := "sin".data

def nmCos : List Char := "cos".data

def nmTan : List Char := "tan".data

def nmX : List Char := "x".data

/-- math.pi as the exact rational value of the IEEE double. -/
def mathPi : PyRat := ⟨884279719003555, 281474976710656⟩

/-- math.e as the exact rational value of the IEEE double. -/
def mathE : PyRat := ⟨6121026514868073, 2251799813685248⟩

/-- The calculator's `math_context`: abs, round, min, max, sqrt, pi, e
(see `Calculator.__init__`). -/
def calcEnv (s : List Char) : Option Val :=
  if s = nmAbs then some (.builtin .babs)
  else if s = nmRound then some (.builtin .bround)
  else if s = nmMin then some (.builtin .bmin)
  else if s = nmMax then some (.builtin .bmax)
  else if s = nmSqrt then some (.builtin .bsqrt)
  else if s = nmPi then some (.num mathPi true)
  else if s = nmE then some (.num mathE true)
  else none

/-- The grapher's `math_context` with `x` bound to the sample value — the
model of `context = self.math_context.copy(); context['x'] = x_value`
(see `Grapher.evaluate`). -/
def grapherEnv (x_value : PyRat) (s : List Char) : Option Val :=
  if s = nmSin then some (.builtin .bsin)
  else if s = nmCos then some (.builtin .bcos)
  else if s = nmTan then some (.builtin .btan)
  else if s = nmSqrt then some (.builtin .bsqrt)
  else if s = nmAbs then some (.builtin .babs)
  else if s = nmPi then some (.num mathPi true)
  else if s = nmE then some (.num mathE true)
  else if s = nmX then some (.num x_value true)
  else none

/-- Binary operators of the modelled Python fragment. -/
inductive BOp where
  | add | sub | mul | div | fdv | mod | pow
deriving DecidableEq

mutual
/-- Abstract syntax of the modelled Python expression fragment (what `eval`
compiles our strings to). -/
inductive PyExpr where
  | lit (q : PyRat) (isFloat : Bool)
  | name (s : List Char)
  | unary (isNeg : Bool) (e : PyExpr)
  | binop (op : BOp) (a b : PyExpr)
  | call (f : PyExpr) (args : PyArgs)
  | attr (e : PyExpr) (fld : List Char)
  | tup (es : PyArgs)
/-- Argument/element lists (a separate mutual inductive keeps all recursion
structural). -/
inductive PyArgs where
  | nil
  | cons (a : PyExpr) (as : PyArgs)
end

def pyBin (op : BOp) (v w : Val) : Except PyErr Val :=
  match op with
  | .add => pyAdd v w
  | .sub => pySub v w
  | .mul => pyMul v w
  | .div => pyDiv v w
  | .fdv => pyFloorDiv v w
  | .mod => pyMod v w
  | .pow => pyPow v w

mutual
/-- Evaluation of the modelled fragment: post-order, left-to-right, exactly
CPython's order (callee before arguments). -/
def evalE (env : List Char → Option Val) : PyExpr → Except PyErr Val
  | .lit q f => .ok (.num q f)
  | .name s =>
      match env s with
      | some v => .ok v
      | none => .error .nameErr
  | .unary isNeg e => do
      let v ← evalE env e
      if isNeg then pyNeg v else pyPos v
  | .binop op a b => do
      let va ← evalE env a
      let vb ← evalE env b
      pyBin op va vb
  | .call f as => do
      let vf ← evalE env f
      let vs ← evalArgs env as
      match vf with
      | .builtin b => applyBuiltin b vs
      | _ => .error .typeErr
  | .attr e fld => do
      let v ← evalE env e
      attrOf v fld
  | .tup es => do
      let vs ← evalArgs env es
      .ok (.tuple vs)

def evalArgs (env : List Char → Option Val) : PyArgs → Except PyErr (List Val)
  | .nil => .ok []
  | .cons a as => do
      let v ← evalE env a
      let vs ← evalArgs env as
      .ok (v :: vs)
end

/-- Tokens of the modelled Python fragment. -/
inductive Tok where
  | num (q : PyRat) (isFloat : Bool)
  | ident (s : List Char)
  | plus | minus | star | slash | dstar | dslash | percent
  | lparen | rparen | comma | dot
deriving DecidableEq

def digitVal (c : Char) : Nat := c.toNat - 48

def natOfDigits (ds : List Char) : Nat :=
  ds.foldl (fun a c => a * 10 + digitVal c) 0

def isHexDigit (c : Char) : Bool :=
  c.isDigit || ('a' ≤ c && c ≤ 'f') || ('A' ≤ c && c ≤ 'F')

def hexDigitVal (c : Char) : Nat :=
  if c.isDigit then digitVal c
  else if 'a' ≤ c && c ≤ 'f' then c.toNat - 87
  else c.toNat - 55

def natOfHexDigits (ds : List Char) : Nat :=
  ds.foldl (fun a c => a * 16 + hexDigitVal c) 0

/-- Whitespace in Python's sense (`str.strip`, `\s`), ASCII fragment. -/
def pyIsSpace (c : Char) : Bool :=
  c = ' ' || c = '\t' || c = '\n' || c = '\x0d' || c = '\x0b' || c = '\x0c'

/-- Model of `str.strip()`. -/
def pyStrip (s : List Char) : List Char :=
  ((s.dropWhile pyIsSpace).reverse.dropWhile pyIsSpace).reverse

def toLowerL (s : List Char) : List Char := s.map Char.toLower

/-- Lex one numeric literal (the input starts with a digit, or with `.`
followed by a digit).  Follows CPython's tokenizer on this fragment:
hex literals, decimal int/float with optional fraction and exponent,
`SyntaxError` for a nonzero decimal int with leading zeros, for a dangling
exponent, and for a number followed directly by a letter
("invalid decimal literal"). -/
def lexNumber (cs : List Char) : Except PyErr (Tok × List Char) :=
  match cs with
  | '0' :: c :: rest =>
      if c = 'x' || c = 'X' then
        let (hs, r) := rest.span isHexDigit
        if hs.isEmpty then .error .synErr
        else if (r.headD ' ').isAlpha then .error .synErr
        else .ok (.num (pr (natOfHexDigits hs)) false, r)
      else lexDecimal cs
  | _ => lexDecimal cs
where
  lexDecimal (cs : List Char) : Except PyErr (Tok × List Char) :=
    let (ip, r1) := cs.span Char.isDigit
    let fpr : Option (List Char) × List Char :=
      match r1 with
      | '.' :: t => ((t.span Char.isDigit).1, (t.span Char.isDigit).2) |>.map some id
      | _ => (none, r1)
    let fp := fpr.1
    let r2 := fpr.2
    match r2 with
    | e :: r3 =>
      if e = 'e' || e = 'E' then
        let sgnr : Bool × List Char :=
          match r3 with
          | '+' :: r4 => (false, r4)
          | '-' :: r4 => (true, r4)
          | _ => (false, r3)
        let (es, r5) := sgnr.2.span Char.isDigit
        if es.isEmpty then .error .synErr
        else if (r5.headD ' ').isAlpha then .error .synErr
        else
          let base := mkPyRat (natOfDigits (ip ++ fp.getD []))
            (intPow 10 (fp.getD []).length)
          let ev := natOfDigits es
          let q := if sgnr.1 then base.div (pr (intPow 10 ev))
            else base.mul (pr (intPow 10 ev))
          .ok (.num q true, r5)
      else
        if e.isAlpha then .error .synErr
        else lexDecimalNoExp ip fp r2
    | [] => lexDecimalNoExp ip fp r2
  lexDecimalNoExp (ip : List Char) (fp : Option (List Char)) (r : List Char) :
      Except PyErr (Tok × List Char) :=
    match fp with
    | some fs =>
        .ok (.num (mkPyRat (natOfDigits (ip ++ fs)) (intPow 10 fs.length)) true, r)
    | none =>
        if ip.length > 1 && ip.headD ' ' = '0' && ip.any (· ≠ '0') then
          .error .synErr
        else .ok (.num (pr (natOfDigits ip)) false, r)

def isIdentChar (c : Char) : Bool := c.isAlpha || c.isDigit

/-- Fueled tokenizer main loop (each step consumes at least one character,
so `length + 1` fuel suffices). -/
def lexF : Nat → List Char → Except PyErr (List Tok)
  | _, [] => .ok []
  | 0, _ => .error .synErr
  | f + 1, c :: cs =>
      if pyIsSpace c then lexF f cs
      else if c.isDigit then do
        let (t, r) ← lexNumber (c :: cs)
        let ts ← lexF f r
        .ok (t :: ts)
      else if c = '.' && (cs.headD ' ').isDigit then do
        let (t, r) ← lexNumber (c :: cs)
        let ts ← lexF f r
        .ok (t :: ts)
      else if c.isAlpha then
        let (w, r) := (c :: cs).span isIdentChar
        (lexF f r).map (fun ts => .ident w :: ts)
      else if c = '*' then
        match cs with
        | '*' :: r => (lexF f r).map (fun ts => .dstar :: ts)
        | _ => (lexF f cs).map (fun ts => .star :: ts)
      else if c = '/' then
        match cs with
        | '/' :: r => (lexF f r).map (fun ts => .dslash :: ts)
        | _ => (lexF f cs).map (fun ts => .slash :: ts)
      else if c = '+' then (lexF f cs).map (fun ts => .plus :: ts)
      else if c = '-' then (lexF f cs).map (fun ts => .minus :: ts)
      else if c = '%' then (lexF f cs).map (fun ts => .percent :: ts)
      else if c = '(' then (lexF f cs).map (fun ts => .lparen :: ts)
      else if c = ')' then (lexF f cs).map (fun ts => .rparen :: ts)
      else if c = ',' then (lexF f cs).map (fun ts => .comma :: ts)
      else if c = '.' then (lexF f cs).map (fun ts => .dot :: ts)
      else .error .synErr

/-- Tokenize a string of the modelled fragment. -/
def pyLex (s : List Char) : Except PyErr (List Tok) := lexF (s.length + 1) s

mutual
/-- Additive level: `expr := term (('+'|'-') term)*`, built left-associated
as in Python's grammar. -/
def pExpr : Nat → List Tok → Except PyErr (PyExpr × List Tok)
  | 0, _ => .error .synErr
  | f + 1, ts => do
      let (a, ts1) ← pTerm f ts
      pExprLoop f a ts1

def pExprLoop : Nat → PyExpr → List Tok → Except PyErr (PyExpr × List Tok)
  | 0, _, _ => .error .synErr
  | f + 1, a, .plus :: ts => do
      let (b, ts1) ← pTerm f ts
      pExprLoop f (.binop .add a b) ts1
  | f + 1, a, .minus :: ts => do
      let (b, ts1) ← pTerm f ts
      pExprLoop f (.binop .sub a b) ts1
  | _ + 1, a, ts => .ok (a, ts)

/-- Multiplicative level: `* / // %`, left-associated. -/
def pTerm : Nat → List Tok → Except PyErr (PyExpr × List Tok)
  | 0, _ => .error .synErr
  | f + 1, ts => do
      let (a, ts1) ← pUnary f ts
      pTermLoop f a ts1

def pTermLoop : Nat → PyExpr → List Tok → Except PyErr (PyExpr × List Tok)
  | 0, _, _ => .error .synErr
  | f + 1, a, .star :: ts => do
      let (b, ts1) ← pUnary f ts
      pTermLoop f (.binop .mul a b) ts1
  | f + 1, a, .slash :: ts => do
      let (b, ts1) ← pUnary f ts
      pTermLoop f (.binop .div a b) ts1
  | f + 1, a, .dslash :: ts => do
      let (b, ts1) ← pUnary f ts
      pTermLoop f (.binop .fdv a b) ts1
  | f + 1, a, .percent :: ts => do
      let (b, ts1) ← pUnary f ts
      pTermLoop f (.binop .mod a b) ts1
  | _ + 1, a, ts => .ok (a, ts)

/-- Unary level: `u := ('-'|'+') u | power`. -/
def pUnary : Nat → List Tok → Except PyErr (PyExpr × List Tok)
  | 0, _ => .error .synErr
  | f + 1, .minus :: ts => do
      let (u, ts1) ← pUnary f ts
      .ok (.unary true u, ts1)
  | f + 1, .plus :: ts => do
      let (u, ts1) ← pUnary f ts
      .ok (.unary false u, ts1)
  | f + 1, ts => pPower f ts

/-- Power level: `power := postfix ('**' unary)?` — the exponent re-enters
the unary level, which makes `**` right-associative (2**2**3 = 2**(2**3))
and lets it bind a signed exponent. -/
def pPower : Nat → List Tok → Except PyErr (PyExpr × List Tok)
  | 0, _ => .error .synErr
  | f + 1, ts => do
      let (a, ts1) ← pPost f ts
      match ts1 with
      | .dstar :: ts2 => do
          let (b, ts3) ← pUnary f ts2
          .ok (.binop .pow a b, ts3)
      | _ => .ok (a, ts1)

/-- Postfix level: attribute access and calls on a primary. -/
def pPost : Nat → List Tok → Except PyErr (PyExpr × List Tok)
  | 0, _ => .error .synErr
  | f + 1, ts => do
      let (a, ts1) ← pAtom f ts
      pPostLoop f a ts1

def pPostLoop : Nat → PyExpr → List Tok → Except PyErr (PyExpr × List Tok)
  | 0, _, _ => .error .synErr
  | f + 1, a, .dot :: ts =>
      (match ts with
      | .ident s :: ts2 => pPostLoop f (.attr a s) ts2
      | _ => .error .synErr)
  | f + 1, a, .lparen :: ts =>
      (match ts with
      | .rparen :: ts2 => pPostLoop f (.call a .nil) ts2
      | _ => do
          let (args, ts2) ← pArgs f ts
          pPostLoop f (.call a args) ts2)
  | _ + 1, a, ts => .ok (a, ts)

/-- Comma-separated expressions terminated by `)` (consumed), with an
optional trailing comma — Python's call-argument / parenthesized-tuple
tail. -/
def pArgs : Nat → List Tok → Except PyErr (PyArgs × List Tok)
  | 0, _ => .error .synErr
  | f + 1, ts => do
      let (e, ts1) ← pExpr f ts
      match ts1 with
      | .comma :: .rparen :: ts2 => .ok (.cons e .nil, ts2)
      | .comma :: ts2 => do
          let (rest, ts3) ← pArgs f ts2
          .ok (.cons e rest, ts3)
      | .rparen :: ts2 => .ok (.cons e .nil, ts2)
      | _ => .error .synErr

/-- Primary: literal, name, or a parenthesized group / tuple. -/
def pAtom : Nat → List Tok → Except PyErr (PyExpr × List Tok)
  | 0, _ => .error .synErr
  | f + 1, .num q fl :: ts => .ok (.lit q fl, ts)
  | f + 1, .ident s :: ts => .ok (.name s, ts)
  | f + 1, .lparen :: ts =>
      (match ts with
      | .rparen :: ts2 => .ok (.tup .nil, ts2)
      | _ => do
          let (e, ts1) ← pExpr f ts
          match ts1 with
          | .rparen :: ts2 => .ok (e, ts2)
          | .comma :: .rparen :: ts2 => .ok (.tup (.cons e .nil), ts2)
          | .comma :: ts2 => do
              let (rest, ts3) ← pArgs f ts2
              .ok (.tup (.cons e rest), ts3)
          | _ => .error .synErr)
  | _ + 1, _ => .error .synErr
end

/-- Remaining members of a top-level expression list, after a comma
(a trailing comma is allowed). -/
def pTopMore : Nat → List Tok → Except PyErr (List PyExpr)
  | 0, _ => .error .synErr
  | _ + 1, [] => .ok []
  | f + 1, ts => do
      let (e, ts1) ← pExpr f ts
      match ts1 with
      | [] => .ok [e]
      | .comma :: ts2 => do
          let rest ← pTopMore f ts2
          .ok (e :: rest)
      | _ => .error .synErr

def toArgs : List PyExpr → PyArgs
  | [] => .nil
  | e :: es => .cons e (toArgs es)

/-- Parse a complete token list: one expression, or a bare expression list
which denotes a tuple (`eval` mode); every token must be consumed. -/
def pyParse (ts : List Tok) : Except PyErr PyExpr := do
  let fuel := 8 * ts.length + 8
  let (a, ts1) ← pExpr fuel ts
  match ts1 with
  | [] => .ok a
  | .comma :: ts2 => do
      let rest ← pTopMore fuel ts2
      .ok (.tup (toArgs (a :: rest)))
  | _ => .error .synErr

/-- Parse a string of the modelled fragment. -/
def pyParseStr (s : List Char) : Except PyErr PyExpr := do
  let ts ← pyLex s
  pyParse ts

/-- The model of `eval(s, {"__builtins__": {}}, env)` on the modelled
fragment. -/
def pyEvalStr (s : List Char) (env : List Char → Option Val) :
    Except PyErr Val := do
  let e ← pyParseStr s
  evalE env e

/-- One pairwise implicit-multiplication rewrite, the model of
`re.sub(r'(A)(B)', r'\1*\2', s)` for single-character classes `A`, `B`:
left-to-right, non-overlapping (both matched characters are consumed). -/
def insStar (p1 p2 : Char → Bool) : List Char → List Char
  | a :: b :: r =>
      if p1 a && p2 b then a :: '*' :: b :: insStar p1 p2 r
      else a :: insStar p1 p2 (b :: r)
  | l => l

def firstMatch (ws : List (List Char)) (r : List Char) : Option (List Char) :=
  match ws with
  | [] => none
  | w :: rest => if w.isPrefixOf r then some w else firstMatch rest r

/-- The model of `re.sub(r'(\d)(w1|w2|...)', r'\1*\2', s)`: a digit followed
by one of the words (first alternative wins), both consumed.  Fueled so the
recursion is structural. -/
def insStarWordF (p : Char → Bool) (ws : List (List Char)) :
    Nat → List Char → List Char
  | 0, l => l
  | _ + 1, [] => []
  | f + 1, c :: r =>
      match (if p c then firstMatch ws r else none) with
      | some w => c :: '*' :: (w ++ insStarWordF p ws f (r.drop w.length))
      | none => c :: insStarWordF p ws f r

def insStarWord (p : Char → Bool) (ws : List (List Char)) (s : List Char) :
    List Char :=
  insStarWordF p ws (s.length + 1) s

/-- The model of `str.replace('^', '**')`. -/
def replaceCaret : List Char → List Char
  | [] => []
  | '^' :: r => '*' :: '*' :: replaceCaret r
  | c :: r => c :: replaceCaret r

/-- Errors surfaced by `Calculator.evaluate_expression`, distinguished by
the `ValueError` message the code raises.  Failures raised inside the `try`
block (non-numeric result, undefined result, and any exception other than
ZeroDivisionError/SyntaxError) are re-wrapped by the generic handler as
"Could not evaluate expression: ...". -/
inductive InnerErr where
  | notANumber       -- "Expression did not evaluate to a number"
  | undefinedResult  -- "Result is undefined (infinity or NaN)"
  | py (e : PyErr)   -- str(e) of the underlying exception
deriving DecidableEq

inductive CalcErr where
  | emptyExpression          -- "Empty expression"
  | invalidCharacters (cs : List Char)  -- "Invalid characters in expression: ..."
  | unbalancedExtraClosing   -- "Unbalanced parentheses: extra closing parenthesis"
  | unbalancedMissingClosing -- "Unbalanced parentheses: missing closing parenthesis"
  | divisionByZero           -- "Cannot divide by zero"
  | invalidSyn               -- "Invalid expression syntax"
  | couldNotEvaluate (inner : InnerErr)  -- "Could not evaluate expression: ..."
deriving DecidableEq

/-- The calculator's only instance field: `self.last_result`
(`self.math_context` is the fixed mapping `calcEnv`, never reassigned). -/
structure Calculator where
  last_result : Val

/-- `Calculator()`: `last_result` starts as the int 0. -/
def Calculator.start : Calculator := ⟨.num (pr 0) false⟩

def isDigitB (c : Char) : Bool := c.isDigit

/-- Model of `Calculator._prepare_expression`: strip, `^` to `**`, unicode
glyphs to `*` and `/`, then the three implicit-multiplication rewrites
digit-`(`, `)`-digit, `)`-`(` in this order. -/
def Calculator.prepare_expression (expression : List Char) : List Char :=
  let e := pyStrip expression
  let e := replaceCaret e
  let e := e.map (fun c => if c = '×' then '*' else c)
  let e := e.map (fun c => if c = '÷' then '/' else c)
  let e := insStar isDigitB (fun c => c = '(') e
  let e := insStar (fun c => c = ')') isDigitB e
  let e := insStar (fun c => c = ')') (fun c => c = '(') e
  e

/-- The character class of `_validate_expression`'s allowed regex
`[\d\+\-\*\/\^\(\)\.\s\,piePIesqrtabsroundminmax]` — the letters are the
distinct characters of that literal class. -/
def allowedChar (c : Char) : Bool :=
  c.isDigit || ['+', '-', '*', '/', '^', '(', ')', '.', ','].contains c
    || pyIsSpace c
    || ['p', 'i', 'e', 'P', 'I', 's', 'q', 'r', 't', 'a', 'b', 'o', 'u',
        'n', 'd', 'm', 'x'].contains c

/-- Left-to-right parenthesis counting of `_validate_expression`: going
negative is "extra closing", ending nonzero is "missing closing". -/
def parenScan : Int → List Char → Except CalcErr Unit
  | k, [] => if k ≠ 0 then .error .unbalancedMissingClosing else .ok ()
  | k, c :: r =>
      let k2 : Int := if c = '(' then k + 1 else if c = ')' then k - 1 else k
      if k2 < 0 then .error .unbalancedExtraClosing else parenScan k2 r

/-- Model of `Calculator._validate_expression` (runs on the original,
unprepared string). -/
def Calculator.validate_expression (expression : List Char) :
    Except CalcErr Unit :=
  if expression.all allowedChar then parenScan 0 expression
  else .error (.invalidCharacters (expression.filter (fun c => !(allowedChar c))))

/-- float(v): a float stays itself, an int too large for a double raises
OverflowError, a non-number raises TypeError. -/
def pyFloat (v : Val) : Except PyErr Val :=
  match v with
  | .num q true => .ok (.num q true)
  | .num q false =>
      if floatLim.ble q.babs then .error .overflowErr else .ok (.num q true)
  | .inf s => .ok (.inf s)
  | .nan => .ok .nan
  | _ => .error .typeErr

/-- Model of `Calculator.evaluate_expression`: empty check, prepare,
validate (on the original string), eval in the restricted context, the
isinstance / isnan / isinf guards, then `self.last_result = float(result)`.
The except-clauses map ZeroDivisionError to "Cannot divide by zero",
SyntaxError to "Invalid expression syntax", and everything else (including
the two ValueErrors raised inside the try block) to "Could not evaluate
expression: ...".  Returns the result (or error) together with the
post-call state. -/
def Calculator.evaluate_expression (c : Calculator) (expression : List Char) :
    Except CalcErr Val × Calculator :=
  if pyStrip expression = [] then (.error .emptyExpression, c)
  else
    match Calculator.validate_expression expression with
    | .error er => (.error er, c)
    | .ok _ =>
        match pyEvalStr (Calculator.prepare_expression expression) calcEnv with
        | .error .zeroDiv => (.error .divisionByZero, c)
        | .error .synErr => (.error .invalidSyn, c)
        | .error er => (.error (.couldNotEvaluate (.py er)), c)
        | .ok v =>
            if !v.isNumber then (.error (.couldNotEvaluate .notANumber), c)
            else if v.isNanOrInf then
              (.error (.couldNotEvaluate .undefinedResult), c)
            else
              match pyFloat v with
              | .error er => (.error (.couldNotEvaluate (.py er)), c)
              | .ok w => (.ok w, ⟨w⟩)

def hdrFx : List Char := "f(x)".data

def wordSin : List Char := "sin".data

def wordCos : List Char := "cos".data

def wordTan : List Char := "tan".data

def wordSqrt : List Char := "sqrt".data

/-- Model of `Grapher.parse_function`: strip; drop the first four characters
whenever they are `f(x)` case-insensitively (note: no `=` is required),
then drop any leading `=` signs and strip again; replace `^` with `**`;
then the five implicit-multiplication rewrites in source order:
digit-`x`, digit-function-word, `x`-`(`, `)`-(`x` or `(`), `)`-digit. -/
def Grapher.parse_function (func_string : List Char) : List Char :=
  let e := pyStrip func_string
  let e :=
    if toLowerL (e.take 4) = hdrFx then
      pyStrip ((e.drop 4).dropWhile (fun c => c = '='))
    else e
  let e := replaceCaret e
  let e := insStar isDigitB (fun c => c = 'x') e
  let e := insStarWord isDigitB [wordSin, wordCos, wordTan, wordSqrt] e
  let e := insStar (fun c => c = 'x') (fun c => c = '(') e
  let e := insStar (fun c => c = ')') (fun c => c = 'x' || c = '(') e
  let e := insStar (fun c => c = ')') isDigitB e
  e

/-- The exception classes caught by `Grapher.evaluate`'s
`except (ValueError, ZeroDivisionError, OverflowError, SyntaxError,
NameError)` clause.  TypeError and AttributeError are NOT caught and
propagate out of the call.  The modelling artefact `unmodeledPow` is
treated as caught so that it never surfaces. -/
def grapherCaught : PyErr → Bool
  | .valueErr | .zeroDiv | .overflowErr | .synErr | .nameErr => true
  | .unmodeledPow => true
  | .typeErr | .attrErr => false

/-- Model of `Grapher.evaluate`: evaluate with `x` bound, return
`float(result)` when the result is a finite number and `None` otherwise;
exceptions in the caught list also give `None`, anything else (TypeError,
AttributeError) escapes the call. -/
def Grapher.evaluate (expression : List Char) (x_value : PyRat) :
    Except PyErr (Option Val) :=
  match pyEvalStr expression (grapherEnv x_value) with
  | .ok v =>
      if v.isNumber && !v.isNanOrInf then
        match pyFloat v with
        | .ok w => .ok (some w)
        | .error er => if grapherCaught er then .ok none else .error er
      else .ok none
  | .error er => if grapherCaught er then .ok none else .error er

/-- Failures of `Grapher.generate_plot_data`: the explicit
`ValueError("Could not evaluate function: ...")` for an empty series, or a
Python exception escaping the loop (ZeroDivisionError from the step
division when `num_points == 1`, TypeError/AttributeError from
`Grapher.evaluate`). -/
inductive GraphErr where
  | couldNotEvalFunction
  | pyRaise (e : PyErr)
deriving DecidableEq

/-- The sampling loop of `generate_plot_data`: for each `i` in
`range(num_points)`, `x = x_min + i * step`; a `None` from
`Grapher.evaluate` skips the point, a value appends `(x, y)` to the two
parallel lists, an escaping exception aborts everything. -/
def sampleLoop (e : List Char) (x_min step : PyRat) :
    Nat → Nat → List PyRat → List Val → Except PyErr (List PyRat × List Val)
  | 0, _, xs, ys => .ok (xs, ys)
  | k + 1, i, xs, ys =>
      let x := x_min.add ((pr i).mul step)
      match Grapher.evaluate e x with
      | .error er => .error er
      | .ok none => sampleLoop e x_min step k (i + 1) xs ys
      | .ok (some y) => sampleLoop e x_min step k (i + 1) (xs ++ [x]) (ys ++ [y])

/-- Model of `Grapher.generate_plot_data`.  There is no range validation:
`num_points == 1` makes `step = (x_max - x_min) / 0` raise
ZeroDivisionError; any `x_min`/`x_max` are accepted.  An empty series after
the loop raises `ValueError("Could not evaluate function: ...")`. -/
def Grapher.generate_plot_data (func_string : List Char)
    (x_min x_max : PyRat) (num_points : Nat) :
    Except GraphErr (List PyRat × List Val) :=
  if num_points = 1 then .error (.pyRaise .zeroDiv)
  else
    match sampleLoop (Grapher.parse_function func_string) x_min
        ((x_max.sub x_min).div (pr ((num_points : Int) - 1)))
        num_points 0 [] [] with
    | .error er => .error (.pyRaise er)
    | .ok (xs, ys) => if xs.isEmpty then .error .couldNotEvalFunction else .ok (xs, ys)

/-- A finite number (a successful `float(result)` of the guarded paths). -/
def Val.isFiniteNum : Val → Bool
  | .num _ _ => true
  | _ => false

def isErrO : Except PyErr (Option Val) → Bool
  | .error _ => true
  | .ok _ => false

/-- The x-coordinate of sample `i`: `x_min + i * step`, exactly the loop's
computation. -/
def sampleX (x_min step : PyRat) (i : Nat) : PyRat :=
  x_min.add ((pr i).mul step)

/-- The step of `generate_plot_data`: `(x_max - x_min) / (num_points - 1)`. -/
def sampleStep (x_min x_max : PyRat) (n : Nat) : PyRat :=
  (x_max.sub x_min).div (pr ((n : Int) - 1))

/-- Specification of the sampled series: for `i` in `[0, n)` evaluate at
`sampleX i`, keep the successful points in index order. -/
def samplePts (e : List Char) (x_min step : PyRat) (n : Nat) :
    List (PyRat × Val) :=
  (List.range n).filterMap (fun i =>
    match Grapher.evaluate e (sampleX x_min step i) with
    | .ok (some y) => some (sampleX x_min step i, y)
    | _ => none)

/-- Recursive form of `samplePts` starting at index `i` for `k` points,
used to relate the loop to the specification. -/
def ptsFrom (e : List Char) (x_min step : PyRat) : Nat → Nat → List (PyRat × Val)
  | _, 0 => []
  | i, k + 1 =>
      match Grapher.evaluate e (sampleX x_min step i) with
      | .ok (some y) => (sampleX x_min step i, y) :: ptsFrom e x_min step (i + 1) k
      | _ => ptsFrom e x_min step (i + 1) k

/-- Constant / variable names of the spec's fixed grammar. -/
def specConstName (s : List Char) : Bool := s = nmPi || s = nmE || s = nmX

/-- Function names of the spec's fixed grammar. -/
def specFuncName (s : List Char) : Bool :=
  s = nmSqrt || s = nmAbs || s = nmRound || s = nmMin || s = nmMax
    || s = nmSin || s = nmCos || s = nmTan

mutual
/-- Whether an AST stays inside the spec's fixed grammar
(`expr/term/unary/power/atom` with named constants, the variable, and
name-headed calls): no attribute access, no tuples, no `//`/`%`. -/
def inFixedGrammar : PyExpr → Bool
  | .lit _ _ => true
  | .name s => specConstName s
  | .unary _ e => inFixedGrammar e
  | .binop op a b =>
      (match op with
      | .fdv => false
      | .mod => false
      | _ => true) && inFixedGrammar a && inFixedGrammar b
  | .call f as =>
      (match f with
      | .name s => specFuncName s
      | _ => false) && argsFixed as
  | .attr _ _ => false
  | .tup _ => false

def argsFixed : PyArgs → Bool
  | .nil => true
  | .cons a as => inFixedGrammar a && argsFixed as
end

def isNonFiniteRes : Except PyErr Val → Bool
  | .ok (.inf _) => true
  | .ok .nan => true
  | _ => false

mutual
/-- Whether evaluating the expression, or any of its subexpressions,
produces a non-finite (infinite or NaN) value — the "intermediate result"
reading of the spec. -/
def subNF (env : List Char → Option Val) : PyExpr → Bool
  | .lit q f => isNonFiniteRes (evalE env (.lit q f))
  | .name s => isNonFiniteRes (evalE env (.name s))
  | .unary b e => isNonFiniteRes (evalE env (.unary b e)) || subNF env e
  | .binop op a b =>
      isNonFiniteRes (evalE env (.binop op a b)) || subNF env a || subNF env b
  | .call f as =>
      isNonFiniteRes (evalE env (.call f as)) || subNF env f || subNFargs env as
  | .attr e fld => isNonFiniteRes (evalE env (.attr e fld)) || subNF env e
  | .tup es => isNonFiniteRes (evalE env (.tup es)) || subNFargs env es

def subNFargs (env : List Char → Option Val) : PyArgs → Bool
  | .nil => false
  | .cons a as => subNF env a || subNFargs env as
end

def inPemdas1 : List Char := "2+3*4".data

def inPemdas2 : List Char := "(2+3)*4".data

def inPemdas3 : List Char := "10-2*3".data

def inPemdas4 : List Char := "10/2/5".data

def inPemdas5 : List Char := "2^2^3".data

def inImpMul : List Char := "2(3+4)".data

def outImpMul : List Char := "2*(3+4)".data

def inParenParen : List Char := "(2)(3)".data

def outParenParen : List Char := "(2)*(3)".data

def inParenDigit : List Char := "(2)3".data

def outParenDigit : List Char := "(2)*3".data

def inTwoX : List Char := "2x".data

def outTwoX : List Char := "2*x".data

def inThreeSin : List Char := "3sin(x)".data

def outThreeSin : List Char := "3*sin(x)".data

def inXParen : List Char := "x(x+1)".data

def outXParen : List Char := "x*(x+1)".data

def inParenX : List Char := "(x+1)x".data

def outParenX : List Char := "(x+1)*x".data

def inParenXParen : List Char := "(x)(x)".data

def outParenXParen : List Char := "(x)*(x)".data

def inParenTwo : List Char := "(x+1)2".data

def outParenTwo : List Char := "(x+1)*2".data

def inTwoXPlusOne : List Char := "2x+1".data

def inDivZero : List Char := "5/0".data

def inBigDiv : List Char := "1/(1e308*10)".data

def inOnePlusOne : List Char := "1+1".data

def inTwoParenX : List Char := "2(x+1)".data

def inJustX : List Char := "x".data

def inHdrEq : List Char := "f(x)=x+1".data

def outHdrEq : List Char := "x+1".data

def inHdrUpper : List Char := "F(X)=x^2".data

def outHdrUpper : List Char := "x**2".data

def inHdrNoEq : List Char := "f(x)x".data

def outHdrNoEq : List Char := "x".data

def inHdrTwoEq : List Char := "f(x)==x".data

def inHdrSpaceEq : List Char := "f(x) = x".data

def outHdrSpaceEq : List Char := "= x".data

def inHdrG : List Char := "g(x)=x".data

def inAttrTrick : List Char := "(1).numerator".data

def inFoo : List Char := "foo".data

/-- The exact value of the float literal `1e308`. -/
def lit1e308 : PyRat := ⟨intPow 10 308, 1⟩

/-- The AST that the modelled pipeline produces for `1/(1e308*10)`. -/
def bigDivAST : PyExpr :=
  .binop .div (.lit (pr 1) false)
    (.binop .mul (.lit lit1e308 true) (.lit (pr 10) false))


theorem gcdF_eq (f : Nat) : ∀ a b : Nat, b ≤ f → gcdF f a b = Nat.gcd a b := by
  induction f with
  | zero =>
      intro a b h
      have hb : b = 0 := Nat.le_zero.mp h
      subst hb
      simp [gcdF]
  | succ f ih =>
      intro a b h
      simp only [gcdF]
      by_cases hb : b = 0
      · subst hb
        simp
      · rw [if_neg hb, ih b (a % b) (by
          have : a % b < b := Nat.mod_lt _ (Nat.pos_of_ne_zero hb)
          omega)]
        calc Nat.gcd b (a % b) = Nat.gcd (a % b) b := Nat.gcd_comm _ _
          _ = Nat.gcd b a := (Nat.gcd_rec b a).symm
          _ = Nat.gcd a b := Nat.gcd_comm _ _

theorem myGcd_gcd (a b : Nat) : myGcd a b = Nat.gcd a b :=
  gcdF_eq (b + 1) a b (by omega)

theorem mkPyRat_spec (num den : Int) (hden : den ≠ 0) :
    0 < (mkPyRat num den).d ∧ (mkPyRat num den).val = (num : ℚ) / (den : ℚ) := by
  rw [mkPyRat, if_neg hden]
  set s : Int := if den < 0 then -num else num with hs
  set dd : Nat := den.natAbs with hdd
  set g : Nat := myGcd s.natAbs dd with hgdef
  have hgg : g = Nat.gcd s.natAbs dd := myGcd_gcd _ _
  have hdd0 : dd ≠ 0 := Int.natAbs_ne_zero.mpr hden
  have hg0 : g ≠ 0 := by
    rw [hgg]
    intro hcon
    exact hdd0 (Nat.eq_zero_of_gcd_eq_zero_right hcon)
  rw [if_neg hg0]
  have h1 : (g : Int) ∣ s := by
    have hd := Nat.gcd_dvd_left s.natAbs dd
    rw [← hgg] at hd
    exact Int.natAbs_dvd_natAbs.mp (by simpa using hd)
  have h2 : g ∣ dd := by
    have := Nat.gcd_dvd_right s.natAbs dd
    rwa [← hgg] at this
  obtain ⟨u, hu⟩ := h1
  obtain ⟨w, hw⟩ := h2
  have hw0 : w ≠ 0 := by
    intro hcon
    rw [hcon, Nat.mul_zero] at hw
    exact hdd0 hw
  constructor
  · show 0 < dd / g
    exact Nat.div_pos (Nat.le_of_dvd (Nat.pos_of_ne_zero hdd0) ⟨w, hw⟩)
      (Nat.pos_of_ne_zero hg0)
  · show PyRat.val ⟨s / (g : Int), dd / g⟩ = (num : ℚ) / (den : ℚ)
    have hsd : (s : ℚ) / (dd : ℚ) = (num : ℚ) / (den : ℚ) := by
      by_cases hneg : den < 0
      · have hint : (dd : Int) = -den := by
          rw [hdd]
          exact Int.ofNat_natAbs_of_nonpos (le_of_lt hneg)
        have hcast : (dd : ℚ) = -(den : ℚ) := by exact_mod_cast hint
        rw [hs, if_pos hneg, hcast]
        push_cast
        rw [neg_div_neg_eq]
      · have hpos : 0 < den := lt_of_le_of_ne (not_lt.mp hneg) (Ne.symm hden)
        have hint : (dd : Int) = den := by
          rw [hdd]
          exact Int.natAbs_of_nonneg (le_of_lt hpos)
        have hcast : (dd : ℚ) = (den : ℚ) := by exact_mod_cast hint
        rw [hs, if_neg hneg, hcast]
    rw [PyRat.val]
    simp only
    rw [hu, hw, ← hsd, hu, hw]
    have hgQ : (g : ℚ) ≠ 0 := by exact_mod_cast hg0
    rw [Int.mul_ediv_cancel_left u (by exact_mod_cast hg0),
      Nat.mul_div_cancel_left w (Nat.pos_of_ne_zero hg0)]
    push_cast
    rw [mul_div_mul_left _ _ hgQ]

theorem pr_dpos (k : Int) : 0 < (pr k).d := by simp [pr]

theorem pr_val (k : Int) : (pr k).val = (k : ℚ) := by simp [pr, PyRat.val]

theorem add_spec (a b : PyRat) (ha : 0 < a.d) (hb : 0 < b.d) :
    0 < (a.add b).d ∧ (a.add b).val = a.val + b.val := by
  have hden : ((a.d : Int) * (b.d : Int)) ≠ 0 := by positivity
  obtain ⟨h1, h2⟩ := mkPyRat_spec (a.n * (b.d : Int) + b.n * (a.d : Int)) _ hden
  refine ⟨h1, ?_⟩
  rw [PyRat.add, h2, PyRat.val, PyRat.val]
  push_cast
  field_simp

theorem sub_spec (a b : PyRat) (ha : 0 < a.d) (hb : 0 < b.d) :
    0 < (a.sub b).d ∧ (a.sub b).val = a.val - b.val := by
  have hden : ((a.d : Int) * (b.d : Int)) ≠ 0 := by positivity
  obtain ⟨h1, h2⟩ := mkPyRat_spec (a.n * (b.d : Int) - b.n * (a.d : Int)) _ hden
  refine ⟨h1, ?_⟩
  rw [PyRat.sub, h2, PyRat.val, PyRat.val]
  push_cast
  field_simp
  ring

theorem mul_spec (a b : PyRat) (ha : 0 < a.d) (hb : 0 < b.d) :
    0 < (a.mul b).d ∧ (a.mul b).val = a.val * b.val := by
  have hden : ((a.d : Int) * (b.d : Int)) ≠ 0 := by positivity
  obtain ⟨h1, h2⟩ := mkPyRat_spec (a.n * b.n) _ hden
  refine ⟨h1, ?_⟩
  rw [PyRat.mul, h2, PyRat.val, PyRat.val]
  push_cast
  field_simp

theorem div_spec (a b : PyRat) (ha : 0 < a.d) (hb : 0 < b.d) (hbn : b.n ≠ 0) :
    0 < (a.div b).d ∧ (a.div b).val = a.val / b.val := by
  have hden : ((a.d : Int) * b.n) ≠ 0 := by
    have : (a.d : Int) ≠ 0 := by positivity
    exact mul_ne_zero this hbn
  obtain ⟨h1, h2⟩ := mkPyRat_spec (a.n * (b.d : Int)) _ hden
  refine ⟨h1, ?_⟩
  rw [PyRat.div, h2, PyRat.val, PyRat.val]
  have hbnQ : ((b.n : Int) : ℚ) ≠ 0 := by exact_mod_cast hbn
  push_cast
  field_simp

theorem blt_iff (a b : PyRat) (ha : 0 < a.d) (hb : 0 < b.d) :
    a.blt b = true ↔ a.val < b.val := by
  rw [PyRat.blt, PyRat.val, PyRat.val]
  rw [decide_eq_true_iff]
  rw [div_lt_div_iff₀ (by exact_mod_cast ha) (by exact_mod_cast hb)]
  constructor
  · intro h
    exact_mod_cast h
  · intro h
    exact_mod_cast h

theorem sampleX_dpos (xm st : PyRat) (hxm : 0 < xm.d) (hst : 0 < st.d)
    (i : Nat) : 0 < (sampleX xm st i).d := by
  rw [sampleX]
  exact (add_spec xm _ hxm (mul_spec (pr i) st (pr_dpos _) hst).1).1

theorem sampleX_val (xm st : PyRat) (hxm : 0 < xm.d) (hst : 0 < st.d)
    (i : Nat) : (sampleX xm st i).val = xm.val + (i : ℚ) * st.val := by
  rw [sampleX]
  rw [(add_spec xm _ hxm (mul_spec (pr i) st (pr_dpos _) hst).1).2]
  rw [(mul_spec (pr i) st (pr_dpos _) hst).2, pr_val]
  push_cast
  ring

theorem sampleX_blt (xm st : PyRat) (hxm : 0 < xm.d) (hst : 0 < st.d)
    (hpos : 0 < st.val) {i j : Nat} (hij : i < j) :
    (sampleX xm st i).blt (sampleX xm st j) = true := by
  rw [blt_iff _ _ (sampleX_dpos xm st hxm hst i) (sampleX_dpos xm st hxm hst j)]
  rw [sampleX_val xm st hxm hst i, sampleX_val xm st hxm hst j]
  have hq : (i : ℚ) < (j : ℚ) := by exact_mod_cast hij
  nlinarith

theorem ptsFrom_append (e : List Char) (xm st : PyRat) :
    ∀ k i xs ys,
      (∀ j, j < k → isErrO (Grapher.evaluate e (sampleX xm st (i + j))) = false) →
      sampleLoop e xm st k i xs ys =
        .ok (xs ++ (ptsFrom e xm st i k).map Prod.fst,
             ys ++ (ptsFrom e xm st i k).map Prod.snd) := by
  intro k
  induction k with
  | zero =>
      intro i xs ys _
      simp [sampleLoop, ptsFrom]
  | succ k ih =>
      intro i xs ys h
      have h0 := h 0 (by omega)
      rw [Nat.add_zero] at h0
      have hshift : ∀ j, j < k →
          isErrO (Grapher.evaluate e (sampleX xm st (i + 1 + j))) = false := by
        intro j hj
        have := h (j + 1) (by omega)
        rwa [show i + (j + 1) = i + 1 + j by omega] at this
      have hx : xm.add ((pr (i : Int)).mul st) = sampleX xm st i := rfl
      rcases hev : Grapher.evaluate e (sampleX xm st i) with er | (_ | y)
      · rw [hev] at h0
        simp [isErrO] at h0
      · simp only [sampleLoop, hx, hev]
        rw [ih (i + 1) xs ys hshift]
        simp only [ptsFrom, hev]
      · simp only [sampleLoop, hx, hev]
        rw [ih (i + 1) (xs ++ [sampleX xm st i]) (ys ++ [y]) hshift]
        simp only [ptsFrom, hev]
        simp

theorem ptsFrom_eq_range' (e : List Char) (xm st : PyRat) :
    ∀ k i, ptsFrom e xm st i k =
      (List.range' i k).filterMap (fun j =>
        match Grapher.evaluate e (sampleX xm st j) with
        | .ok (some y) => some (sampleX xm st j, y)
        | _ => none) := by
  intro k
  induction k with
  | zero => intro i; simp [ptsFrom]
  | succ k ih =>
      intro i
      rw [List.range'_succ, List.filterMap_cons]
      rcases hev : Grapher.evaluate e (sampleX xm st i) with er | (_ | y)
      · simp only [ptsFrom, hev, ih]
      · simp only [ptsFrom, hev, ih]
      · simp only [ptsFrom, hev, ih]

theorem samplePts_eq_ptsFrom (e : List Char) (xm st : PyRat) (n : Nat) :
    samplePts e xm st n = ptsFrom e xm st 0 n := by
  rw [samplePts, ptsFrom_eq_range', List.range_eq_range']

theorem ptsFrom_mem_fst (e : List Char) (xm st : PyRat) :
    ∀ k i z, z ∈ (ptsFrom e xm st i k).map Prod.fst →
      ∃ j, i ≤ j ∧ j < i + k ∧ z = sampleX xm st j := by
  intro k
  induction k with
  | zero => intro i z hz; simp [ptsFrom] at hz
  | succ k ih =>
      intro i z hz
      rcases hev : Grapher.evaluate e (sampleX xm st i) with er | (_ | y) <;>
        rw [ptsFrom, hev] at hz
      · obtain ⟨j, h1, h2, h3⟩ := ih (i + 1) z hz
        exact ⟨j, by omega, by omega, h3⟩
      · obtain ⟨j, h1, h2, h3⟩ := ih (i + 1) z hz
        exact ⟨j, by omega, by omega, h3⟩
      · rw [List.map_cons, List.mem_cons] at hz
        rcases hz with hz | hz
        · exact ⟨i, by omega, by omega, hz⟩
        · obtain ⟨j, h1, h2, h3⟩ := ih (i + 1) z hz
          exact ⟨j, by omega, by omega, h3⟩

theorem ptsFrom_pairwise (e : List Char) (xm st : PyRat)
    (mono : ∀ i j : Nat, i < j →
      (sampleX xm st i).blt (sampleX xm st j) = true) :
    ∀ k i, ((ptsFrom e xm st i k).map Prod.fst).Pairwise
      (fun a b => a.blt b = true) := by
  intro k
  induction k with
  | zero => intro i; simp [ptsFrom]
  | succ k ih =>
      intro i
      rcases hev : Grapher.evaluate e (sampleX xm st i) with er | (_ | y) <;>
        rw [ptsFrom, hev]
      · exact ih (i + 1)
      · exact ih (i + 1)
      · rw [List.map_cons]
        refine List.Pairwise.cons ?_ (ih (i + 1))
        intro z hz
        obtain ⟨j, h1, _, h3⟩ := ptsFrom_mem_fst e xm st k (i + 1) z hz
        rw [h3]
        exact mono i j (by omega)

theorem sampleStep_dpos_val (xmin xmax : PyRat) (n : Nat)
    (hdmin : 0 < xmin.d) (hdmax : 0 < xmax.d) (h2 : 2 ≤ n) :
    0 < (sampleStep xmin xmax n).d ∧
      (sampleStep xmin xmax n).val = (xmax.val - xmin.val) / ((n : ℚ) - 1) := by
  have hstn : (pr ((n : Int) - 1)).n ≠ 0 := by
    simp only [pr]
    omega
  have hsub := sub_spec xmax xmin hdmax hdmin
  have hst := div_spec (xmax.sub xmin) (pr ((n : Int) - 1)) hsub.1 (pr_dpos _) hstn
  refine ⟨hst.1, ?_⟩
  rw [show (sampleStep xmin xmax n).val =
    ((xmax.sub xmin).div (pr ((n : Int) - 1))).val from rfl, hst.2, hsub.2, pr_val]
  push_cast
  ring_nf

theorem c5_core (f : List Char) (xmin xmax : PyRat) (n : Nat)
    (hdmin : 0 < xmin.d) (hdmax : 0 < xmax.d) (h2 : 2 ≤ n)
    (hx : xmin.val < xmax.val)
    (hne : ∀ i, i < n → isErrO (Grapher.evaluate (Grapher.parse_function f)
      (sampleX xmin (sampleStep xmin xmax n) i)) = false) :
    (samplePts (Grapher.parse_function f) xmin (sampleStep xmin xmax n) n = [] →
      Grapher.generate_plot_data f xmin xmax n = .error .couldNotEvalFunction)
    ∧ (samplePts (Grapher.parse_function f) xmin (sampleStep xmin xmax n) n ≠ [] →
      Grapher.generate_plot_data f xmin xmax n =
        .ok ((samplePts (Grapher.parse_function f) xmin
                (sampleStep xmin xmax n) n).map Prod.fst,
             (samplePts (Grapher.parse_function f) xmin
                (sampleStep xmin xmax n) n).map Prod.snd))
    ∧ ((samplePts (Grapher.parse_function f) xmin
          (sampleStep xmin xmax n) n).map Prod.fst).Pairwise
        (fun a b => a.blt b = true) := by
  obtain ⟨hstd, hstval⟩ := sampleStep_dpos_val xmin xmax n hdmin hdmax h2
  have hstpos : 0 < (sampleStep xmin xmax n).val := by
    rw [hstval]
    have hn2 : (2 : ℚ) ≤ (n : ℚ) := by exact_mod_cast h2
    have : (0 : ℚ) < (n : ℚ) - 1 := by linarith
    exact div_pos (by linarith) this
  have mono : ∀ i j : Nat, i < j →
      (sampleX xmin (sampleStep xmin xmax n) i).blt
        (sampleX xmin (sampleStep xmin xmax n) j) = true :=
    fun i j hij => sampleX_blt xmin _ hdmin hstd hstpos hij
  have hloop := ptsFrom_append (Grapher.parse_function f) xmin
    (sampleStep xmin xmax n) n 0 [] []
    (fun j hj => by simpa using hne j hj)
  have hgen : Grapher.generate_plot_data f xmin xmax n =
      (if ((ptsFrom (Grapher.parse_function f) xmin
            (sampleStep xmin xmax n) 0 n).map Prod.fst).isEmpty then
        .error .couldNotEvalFunction
      else
        .ok ((ptsFrom (Grapher.parse_function f) xmin
                (sampleStep xmin xmax n) 0 n).map Prod.fst,
             (ptsFrom (Grapher.parse_function f) xmin
                (sampleStep xmin xmax n) 0 n).map Prod.snd)) := by
    rw [Grapher.generate_plot_data, if_neg (by omega : ¬ n = 1)]
    rw [show (xmax.sub xmin).div (pr ((n : Int) - 1)) = sampleStep xmin xmax n
      from rfl]
    simp only [hloop, List.nil_append]
  refine ⟨?_, ?_, ?_⟩
  · intro hempty
    rw [samplePts_eq_ptsFrom] at hempty
    rw [hgen, hempty]
    simp
  · intro hne2
    rw [samplePts_eq_ptsFrom] at hne2 ⊢
    rw [hgen, if_neg (by simpa using hne2)]
  · rw [samplePts_eq_ptsFrom]
    exact ptsFrom_pairwise _ _ _ mono n 0

theorem pyFloat_finite {u w : Val} (hn : u.isNumber = true)
    (hni : u.isNanOrInf = false) (h : pyFloat u = .ok w) :
    ∃ q, w = .num q true := by
  cases u with
  | num q f =>
      cases f with
      | true =>
          rw [pyFloat] at h
          exact ⟨q, (Except.ok.inj h).symm⟩
      | false =>
          rw [pyFloat] at h
          split at h
          · exact absurd h (by simp)
          · exact ⟨q, (Except.ok.inj h).symm⟩
  | inf s => simp [Val.isNanOrInf] at hni
  | nan => simp [Val.isNanOrInf] at hni
  | builtin b => simp [Val.isNumber] at hn
  | tuple vs => simp [Val.isNumber] at hn

theorem evaluate_some {e : List Char} {x : PyRat} {w : Val}
    (h : Grapher.evaluate e x = .ok (some w)) : ∃ q, w = .num q true := by
  unfold Grapher.evaluate at h
  split at h
  · rename_i v hpe
    split at h
    · rename_i hguard
      rcases hf : pyFloat v with er2 | w2 <;> rw [hf] at h
      · (repeat' split at h) <;> simp_all
      · simp only [Except.ok.injEq, Option.some.injEq] at h
        subst h
        rw [Bool.and_eq_true, Bool.not_eq_true'] at hguard
        exact pyFloat_finite hguard.1 hguard.2 hf
    · simp at h
  · rename_i er hpe
    split at h <;> simp at h

theorem sampleLoop_ys_inv (e : List Char) (xm st : PyRat) :
    ∀ k i xs ys xs2 ys2,
      sampleLoop e xm st k i xs ys = .ok (xs2, ys2) →
      (∀ y ∈ ys, ∃ q, y = Val.num q true) →
      ∀ y ∈ ys2, ∃ q, y = Val.num q true := by
  intro k
  induction k with
  | zero =>
      intro i xs ys xs2 ys2 h hinv
      rw [sampleLoop] at h
      have := Except.ok.inj h
      rw [← (Prod.mk.injEq _ _ _ _).mp this |>.2]
      exact hinv
  | succ k ih =>
      intro i xs ys xs2 ys2 h hinv
      rw [sampleLoop] at h
      rcases hev : Grapher.evaluate e (xm.add ((pr (i : Int)).mul st)) with
        er | (_ | y) <;> rw [hev] at h
      · exact absurd h (by simp)
      · exact ih (i + 1) xs ys xs2 ys2 h hinv
      · refine ih (i + 1) (xs ++ [xm.add ((pr (i : Int)).mul st)]) (ys ++ [y])
          xs2 ys2 h ?_
        intro z hz
        rw [List.mem_append] at hz
        rcases hz with hz | hz
        · exact hinv z hz
        · rw [List.mem_singleton] at hz
          subst hz
          exact evaluate_some hev

theorem evalexpr_cases (c : Calculator) (s : List Char) :
    (∃ v, Calculator.evaluate_expression c s = (.ok v, ⟨v⟩)) ∨
    (∃ er, Calculator.evaluate_expression c s = (.error er, c)) := by
  rw [Calculator.evaluate_expression]
  repeat
    first
    | exact Or.inl ⟨_, rfl⟩
    | exact Or.inr ⟨_, rfl⟩
    | split


set_option maxRecDepth 4000

/-- C1: the calculator's expression evaluation follows PEMDAS with
left-associative `+ - * /` and right-associative `^`: the five required
results 2+3*4 = 14, (2+3)*4 = 20, 10-2*3 = 4, 10/2/5 = 1, 2^2^3 = 256 hold
end to end, and the parser builds `a/b/c` as `(a/b)/c` and `a**b**c` as
`a**(b**c)` for all operands. -/
theorem claim_C1_pemdas :
    (Calculator.evaluate_expression Calculator.start inPemdas1).1 =
      .ok (.num (pr 14) true)
    ∧ (Calculator.evaluate_expression Calculator.start inPemdas2).1 =
      .ok (.num (pr 20) true)
    ∧ (Calculator.evaluate_expression Calculator.start inPemdas3).1 =
      .ok (.num (pr 4) true)
    ∧ (Calculator.evaluate_expression Calculator.start inPemdas4).1 =
      .ok (.num (pr 1) true)
    ∧ (Calculator.evaluate_expression Calculator.start inPemdas5).1 =
      .ok (.num (pr 256) true)
    ∧ (∀ (a b c : PyRat) (fa fb fc : Bool),
        pyParse [.num a fa, .slash, .num b fb, .slash, .num c fc] =
          .ok (.binop .div (.binop .div (.lit a fa) (.lit b fb)) (.lit c fc)))
    ∧ (∀ (a b c : PyRat) (fa fb fc : Bool),
        pyParse [.num a fa, .dstar, .num b fb, .dstar, .num c fc] =
          .ok (.binop .pow (.lit a fa) (.binop .pow (.lit b fb) (.lit c fc)))) :=
  ⟨rfl, rfl, rfl, rfl, rfl, fun _ _ _ _ _ _ => rfl, fun _ _ _ _ _ _ => rfl⟩

/-- C2, counterexample: the claim says normalization inserts `*` at every
listed boundary, including digit-before-`(` and digit-before-`x`; but the
calculator's normalizer leaves `2x` unchanged (it has no digit-`x` rule) and
the grapher's normalizer leaves `2(3+4)` unchanged (it has no
digit-`(` rule), so neither component implements the full list. -/
theorem claim_C2_counterexample :
    Calculator.prepare_expression inTwoX = inTwoX
    ∧ Grapher.parse_function inImpMul = inImpMul := ⟨rfl, rfl⟩

/-- C2, amended: each component inserts `*` at its own boundary subset —
the calculator at digit-`(`, `)`-digit and `)`-`(`; the grapher at
digit-`x`, digit-function-name, `x`-`(`, `)`-`x`/`(`, and `)`-digit — and
the two end-to-end examples hold: the calculator evaluates `2(3+4)` to 14
and the grapher compiles `2x+1` and evaluates it at x = 3 to 7. -/
theorem claim_C2_amended :
    Calculator.prepare_expression inImpMul = outImpMul
    ∧ Calculator.prepare_expression inParenParen = outParenParen
    ∧ Calculator.prepare_expression inParenDigit = outParenDigit
    ∧ Grapher.parse_function inTwoX = outTwoX
    ∧ Grapher.parse_function inThreeSin = outThreeSin
    ∧ Grapher.parse_function inXParen = outXParen
    ∧ Grapher.parse_function inParenX = outParenX
    ∧ Grapher.parse_function inParenXParen = outParenXParen
    ∧ Grapher.parse_function inParenTwo = outParenTwo
    ∧ (Calculator.evaluate_expression Calculator.start inImpMul).1 =
        .ok (.num (pr 14) true)
    ∧ Grapher.evaluate (Grapher.parse_function inTwoXPlusOne) (pr 3) =
        .ok (some (.num (pr 7) true)) :=
  ⟨rfl, rfl, rfl, rfl, rfl, rfl, rfl, rfl, rfl, rfl, rfl⟩

/-- C3: whenever the right operand of a `/` evaluates to exactly 0 (and the
left operand evaluates to a number, including nan and the infinities), the
division evaluates to ZeroDivisionError; concretely the calculator fails on
`5/0` with the division-by-zero error, and the grapher's single-point
evaluation of `5/0` hits the same ZeroDivisionError internally and yields
no value (None) rather than a number. -/
theorem claim_C3_division_by_zero :
    (∀ (env : List Char → Option Val) (l r : PyExpr) (v : Val) (z : PyRat)
      (fb : Bool), evalE env l = .ok v → v.isNumber = true →
      evalE env r = .ok (.num z fb) → z.isZero = true →
      evalE env (.binop .div l r) = .error .zeroDiv)
    ∧ (Calculator.evaluate_expression Calculator.start inDivZero).1 =
        .error .divisionByZero
    ∧ pyEvalStr (Grapher.parse_function inDivZero) (grapherEnv (pr 1)) =
        .error .zeroDiv
    ∧ Grapher.evaluate (Grapher.parse_function inDivZero) (pr 1) = .ok none := by
  refine ⟨?_, rfl, rfl, rfl⟩
  intro env l r v z fb h1 hv h2 hz
  have hstep : evalE env (.binop .div l r) =
      (evalE env l).bind (fun va =>
        (evalE env r).bind (fun vb => pyBin .div va vb)) := rfl
  rw [hstep, h1]
  simp only [Except.bind]
  rw [h2]
  simp only [Except.bind]
  cases v <;> simp_all [pyBin, pyDiv, Val.isNumber]

/-- C3, witness: the general part applied to the literal division `5/0` in
the calculator's environment. -/
theorem claim_C3_witness :
    evalE calcEnv (.binop .div (.lit (pr 5) false) (.lit (pr 0) false)) =
      .error .zeroDiv :=
  claim_C3_division_by_zero.1 calcEnv _ _ (.num (pr 5) false) (pr 0) false
    rfl rfl rfl rfl

/-- C4, counterexample: evaluating `1/(1e308*10)` succeeds with the finite
result 0.0 even though the intermediate result `1e308*10` is infinite
(float overflow); the claim's promise that a non-finite intermediate result
is reported as UndefinedResultError is false — only the final result is
checked. -/
theorem claim_C4_counterexample :
    (Calculator.evaluate_expression Calculator.start inBigDiv).1 =
      .ok (.num (pr 0) true)
    ∧ pyParseStr (Calculator.prepare_expression inBigDiv) = .ok bigDivAST
    ∧ subNF calcEnv bigDivAST = true :=
  ⟨rfl, rfl, rfl⟩

/-- C4, amended: every evaluation that succeeds returns a finite double
(the final result is guarded by the isinstance/isnan/isinf checks and
`float()`), and every y ever stored in a plot series is a finite number;
non-finite intermediate values are not detected when the final result is
finite. -/
theorem claim_C4_amended :
    (∀ (c : Calculator) (s : List Char) (v : Val) (c2 : Calculator),
      Calculator.evaluate_expression c s = (.ok v, c2) → ∃ q, v = .num q true)
    ∧ (∀ (f : List Char) (xmin xmax : PyRat) (n : Nat)
        (xs : List PyRat) (ys : List Val),
        Grapher.generate_plot_data f xmin xmax n = .ok (xs, ys) →
        ∀ y ∈ ys, ∃ q, y = .num q true) := by
  constructor
  · intro c s v c2 h
    rw [Calculator.evaluate_expression] at h
    split at h
    · simp at h
    · split at h
      · simp at h
      · split at h
        · simp at h
        · simp at h
        · simp at h
        · split at h
          · simp at h
          · split at h
            · simp at h
            · rename_i v2 heval hnum hnan
              split at h
              · simp at h
              · rename_i w hfl
                rw [Prod.mk.injEq] at h
                have hv2 : w = v := Except.ok.inj h.1
                subst hv2
                refine pyFloat_finite ?_ ?_ hfl
                · simp at hnum
                  exact hnum
                · simp at hnan
                  exact hnan
  · intro f xmin xmax n xs ys h
    rw [Grapher.generate_plot_data] at h
    split at h
    · simp at h
    · split at h
      · simp at h
      · rename_i xs2 ys2 hloop
        split at h
        · simp at h
        · have hpair := Except.ok.inj h
          rw [Prod.mk.injEq] at hpair
          rw [← hpair.2]
          exact sampleLoop_ys_inv _ _ _ n 0 [] [] xs2 ys2 hloop (by simp)

/-- C4, witness: the amended theorem applied to the successful evaluation
of `1+1` and to the 2-point sampling of `x` on [0, 1]. -/
theorem claim_C4_witness :
    (∃ q, Val.num (pr 2) true = Val.num q true)
    ∧ (∀ y ∈ [Val.num (pr 0) true, Val.num (pr 1) true],
        ∃ q, y = Val.num q true) :=
  ⟨claim_C4_amended.1 Calculator.start inOnePlusOne (Val.num (pr 2) true)
    ⟨Val.num (pr 2) true⟩ rfl,
   claim_C4_amended.2 inJustX (pr 0) (pr 1) 2 [pr 0, pr 1]
    [Val.num (pr 0) true, Val.num (pr 1) true] rfl⟩

/-- C5, counterexample: the claim says a point where evaluation fails is
silently skipped and an all-failed sample ends in the empty-series error;
but for `2(x+1)` (whose digit-`(` boundary the grapher does not normalize)
every evaluation raises TypeError, which is not in the caught exception
list, so the whole sample call aborts with TypeError instead. -/
theorem claim_C5_counterexample :
    Grapher.generate_plot_data inTwoParenX (pr 0) (pr 1) 3 =
      .error (.pyRaise .typeErr)
    ∧ GraphErr.pyRaise .typeErr ≠ GraphErr.couldNotEvalFunction :=
  ⟨rfl, by decide⟩

/-- C5, amended: for a well-formed interval (xMin < xMax, count ≥ 2) and an
expression whose pointwise evaluation never raises an uncaught exception,
the sample evaluates at exactly the points `x_i = xMin + i·step` with
`step = (xMax−xMin)/(count−1)` for `i in [0, count)`, keeps exactly the
successful points in index order (silently skipping caught failures), fails
with the empty-series error exactly when every point was skipped, and the
stored x-coordinates are strictly increasing. -/
theorem claim_C5_amended (f : List Char) (xmin xmax : PyRat) (n : Nat)
    (hdmin : 0 < xmin.d) (hdmax : 0 < xmax.d) (h2 : 2 ≤ n)
    (hx : xmin.val < xmax.val)
    (hne : ∀ i, i < n → isErrO (Grapher.evaluate (Grapher.parse_function f)
      (sampleX xmin (sampleStep xmin xmax n) i)) = false) :
    (samplePts (Grapher.parse_function f) xmin (sampleStep xmin xmax n) n = [] →
      Grapher.generate_plot_data f xmin xmax n = .error .couldNotEvalFunction)
    ∧ (samplePts (Grapher.parse_function f) xmin (sampleStep xmin xmax n) n ≠ [] →
      Grapher.generate_plot_data f xmin xmax n =
        .ok ((samplePts (Grapher.parse_function f) xmin
                (sampleStep xmin xmax n) n).map Prod.fst,
             (samplePts (Grapher.parse_function f) xmin
                (sampleStep xmin xmax n) n).map Prod.snd))
    ∧ ((samplePts (Grapher.parse_function f) xmin
          (sampleStep xmin xmax n) n).map Prod.fst).Pairwise
        (fun a b => a.blt b = true) :=
  c5_core f xmin xmax n hdmin hdmax h2 hx hne

/-- C5, witness: sampling `x` over [0, 1] with 2 points through the amended
theorem gives the series ([0, 1], [0.0, 1.0]). -/
theorem claim_C5_witness :
    Grapher.generate_plot_data inJustX (pr 0) (pr 1) 2 =
      .ok ([pr 0, pr 1], [Val.num (pr 0) true, Val.num (pr 1) true]) := by
  have h := claim_C5_amended inJustX (pr 0) (pr 1) 2 (by decide) (by decide)
    (by omega) (by norm_num [PyRat.val, pr]) (by decide)
  have hp : samplePts (Grapher.parse_function inJustX) (pr 0)
      (sampleStep (pr 0) (pr 1) 2) 2 =
      [(pr 0, Val.num (pr 0) true), (pr 1, Val.num (pr 1) true)] := rfl
  have h2 := h.2.1 (by rw [hp]; simp)
  rw [hp] at h2
  exact h2

/-- C6, counterexample: there is no range validation at all — with
xMin = xMax = 0 and count = 5 the sample succeeds with five identical
points instead of failing with InvalidRangeError, and with count = 1 the
call crashes with ZeroDivisionError (step division by count−1 = 0), again
not an InvalidRangeError. -/
theorem claim_C6_counterexample :
    Grapher.generate_plot_data inJustX (pr 0) (pr 0) 5 =
      .ok ([pr 0, pr 0, pr 0, pr 0, pr 0],
        [Val.num (pr 0) true, Val.num (pr 0) true, Val.num (pr 0) true,
         Val.num (pr 0) true, Val.num (pr 0) true])
    ∧ Grapher.generate_plot_data inJustX (pr 0) (pr 1) 1 =
      .error (.pyRaise .zeroDiv) := ⟨rfl, rfl⟩

/-- C6, amended: generate_plot_data performs no range validation: count = 1
always raises ZeroDivisionError from the step division, count = 0 samples
nothing and fails with the empty-series error, and xMin ≥ xMax is accepted
(sampling proceeds, e.g. five coincident points for xMin = xMax). -/
theorem claim_C6_amended :
    (∀ (f : List Char) (xmin xmax : PyRat),
      Grapher.generate_plot_data f xmin xmax 1 = .error (.pyRaise .zeroDiv))
    ∧ Grapher.generate_plot_data inJustX (pr 0) (pr 1) 0 =
        .error .couldNotEvalFunction
    ∧ Grapher.generate_plot_data inJustX (pr 0) (pr 0) 5 =
        .ok ([pr 0, pr 0, pr 0, pr 0, pr 0],
          [Val.num (pr 0) true, Val.num (pr 0) true, Val.num (pr 0) true,
           Val.num (pr 0) true, Val.num (pr 0) true]) :=
  ⟨fun _ _ _ => rfl, rfl, rfl⟩

/-- C7, counterexample: the calculator does hold state beyond a single
call — a successful `evaluate_expression` mutates its `last_result` field
(here from the initial 0 to 2.0). -/
theorem claim_C7_counterexample :
    (Calculator.evaluate_expression Calculator.start inOnePlusOne).2 ≠
      Calculator.start := by
  intro h
  have h2 : Val.num (pr 2) true = Val.num (pr 0) false :=
    congrArg Calculator.last_result h
  simp at h2

/-- C7, amended: the only state a core call touches is the calculator's
`last_result`, which is overwritten with the result exactly on success and
left unchanged on every failure; the environments are fixed mappings and
the grapher is stateless. -/
theorem claim_C7_amended (c : Calculator) (s : List Char) :
    (Calculator.evaluate_expression c s).2 =
      match (Calculator.evaluate_expression c s).1 with
      | .ok v => ⟨v⟩
      | .error _ => c := by
  rcases evalexpr_cases c s with ⟨v, hv⟩ | ⟨er, her⟩
  · rw [hv]
  · rw [her]

/-- C8, counterexample: an input starting with `f(x)` NOT followed by `=`
is still treated as having a header — `f(x)x` is compiled as if it were
just `x` (the code strips the first four characters whenever they spell
`f(x)`, with no check for `=`). -/
theorem claim_C8_counterexample :
    Grapher.parse_function inHdrNoEq = outHdrNoEq := rfl

/-- C8, amended: the leading four characters are stripped whenever they
case-insensitively equal `f(x)` (no `=` required); any `=` characters
immediately following are then removed and the rest trimmed — so `f(x)=x+1`,
`F(X)=x^2`, `f(x)x` and `f(x)==x` all lose the header, a space before the
`=` leaves the `=` in the body, and other prefixes such as `g(x)=` are not
stripped. -/
theorem claim_C8_amended :
    Grapher.parse_function inHdrEq = outHdrEq
    ∧ Grapher.parse_function inHdrUpper = outHdrUpper
    ∧ Grapher.parse_function inHdrNoEq = outHdrNoEq
    ∧ Grapher.parse_function inHdrTwoEq = outHdrNoEq
    ∧ Grapher.parse_function inHdrSpaceEq = outHdrSpaceEq
    ∧ Grapher.parse_function inHdrG = inHdrG :=
  ⟨rfl, rfl, rfl, rfl, rfl, rfl⟩

/-- C9, counterexample: the core does delegate to a general evaluator —
`(1).numerator` is accepted by the validator, parses to an
attribute-access node outside the fixed grammar, and evaluates to 1.0, so
evaluation is not limited to the fixed grammar's operators and the
environment's names. -/
theorem claim_C9_counterexample :
    pyParseStr (Calculator.prepare_expression inAttrTrick) =
      .ok (.attr (.lit (pr 1) false) fldNumerator)
    ∧ inFixedGrammar (.attr (.lit (pr 1) false) fldNumerator) = false
    ∧ (Calculator.evaluate_expression Calculator.start inAttrTrick).1 =
        .ok (.num (pr 1) true) := ⟨rfl, rfl, rfl⟩

/-- C9, amended: evaluation is delegated to a restricted general
evaluator: name resolution is limited to the environment (an unknown name
is a NameError), but language features beyond the fixed arithmetic
grammar — such as attribute access — remain evaluable, e.g.
`(1).numerator` evaluates to 1.0. -/
theorem claim_C9_amended :
    (∀ nm : List Char, calcEnv nm = none →
      evalE calcEnv (.name nm) = .error .nameErr)
    ∧ (Calculator.evaluate_expression Calculator.start inAttrTrick).1 =
        .ok (.num (pr 1) true) := by
  refine ⟨?_, rfl⟩
  intro nm h
  have hstep : evalE calcEnv (.name nm) =
      (match calcEnv nm with
      | some v => .ok v
      | none => .error .nameErr) := rfl
  rw [hstep, h]

/-- C9, witness: the unknown name `foo` resolves to a NameError. -/
theorem claim_C9_witness :
    evalE calcEnv (.name inFoo) = .error .nameErr :=
  claim_C9_amended.1 inFoo rfl

/-- C10: every failing call of `evaluate_expression` leaves the
calculator's `last_result` unchanged — `self.last_result` is only assigned
after all guards pass, so failure is atomic with respect to the
calculator's state. -/
theorem claim_C10_failure_keeps_state (c : Calculator) (s : List Char)
    (er : CalcErr) (h : (Calculator.evaluate_expression c s).1 = .error er) :
    (Calculator.evaluate_expression c s).2 = c := by
  rcases evalexpr_cases c s with ⟨v, hv⟩ | ⟨er2, her⟩
  · rw [hv] at h
    simp at h
  · rw [her]

/-- C10, witness: the failing evaluation of `5/0` keeps a prior
`last_result` of 5. -/
theorem claim_C10_witness :
    (Calculator.evaluate_expression ⟨Val.num (pr 5) false⟩ inDivZero).2 =
      ⟨Val.num (pr 5) false⟩ :=
  claim_C10_failure_keeps_state ⟨Val.num (pr 5) false⟩ inDivZero
    .divisionByZero rfl
